import Mathlib

/-
Shallow embedding of src/scripts/validate-pipelines.py (class PipelineValidator
and main).  Python dicts are modelled as insertion-ordered association lists,
mutable attributes as explicit state passing, exceptions as Except, and the
external world (filesystem, subprocess launches, yaml loading, the clock) as an
explicit Env record of pure functions.  Print statements and os.system side
effects carry no data into any result and are dropped.
-/

set_option maxHeartbeats 1000000

namespace ValidatePipelines

/-- A parsed JSON document, as produced by json.load.  Numbers are modelled as
integers; the validator never inspects numeric values beyond their type, so the
representation of floats is irrelevant here. -/
inductive JsonValue where
  | obj (kvs : List (String × JsonValue))
  | arr (elems : List JsonValue)
  | str (s : String)
  | num (n : Int)
  | boolean (b : Bool)
  | null
  deriving Repr

/-- Outcome of json.load on a file: either a JSONDecodeError with its message,
or a parsed value. -/
inductive JsonParse where
  | malformed (message : String)
  | value (v : JsonValue)
  deriving Repr

/-- Outcome of one subprocess.run call as the OS decides it: the process exits
(with return code, captured streams and elapsed seconds), the 60-second timeout
expires (subprocess.TimeoutExpired), or the launch itself fails with some
exception (elapsed seconds measured up to the failure). -/
inductive RunOutcome where
  | exited (returncode : Int) (stdoutText stderrText : String) (elapsed : Nat)
  | timedOut
  | launchFailed (message : String) (elapsed : Nat)
  deriving Repr

/-- One test case object of the yaml configuration: keys pipeline (required),
working_dir, expected_outputs, json_validations.  Option models presence of the
optional keys; json_validations is an insertion-ordered dict from json file
path to required field list. -/
structure CaseConfig where
  pipeline : String
  working_dir : Option String
  expected_outputs : Option (List String)
  json_validations : Option (List (String × List String))
  deriving Repr, DecidableEq

/-- The loaded yaml configuration: optional setup command list and the tests
dict, insertion-ordered (config.get with default of an empty dict makes a
missing tests key an empty list). -/
structure SuiteConfig where
  setup : Option (List String)
  tests : List (String × CaseConfig)
  deriving Repr, DecidableEq

/-- The external world: file existence, json parsing of a file's content,
subprocess behaviour per (pipeline path, working dir), yaml loading of the
configuration, and the wall clock at report time. -/
structure Env where
  pathExists : String → Bool
  parseJson : String → JsonParse
  runProc : String → String → RunOutcome
  loadYaml : String → SuiteConfig
  now : Nat

/-- Path(working_dir) / output_path, modelled abstractly as string joining. -/
def pathJoin (workingDir p : String) : String :=
  workingDir ++ "/" ++ p

/-- The dict returned by run_pipeline. -/
structure ExecutionResult where
  success : Bool
  stdout : String
  stderr : String
  duration : Nat
  exit_code : Int
  deriving Repr, DecidableEq

/-- The hard-coded timeout of the subprocess.run call (line 31). -/
def timeoutSeconds : Nat := 60

/-- PipelineValidator.run_pipeline: run the CLI on a pipeline and capture the
result; subprocess.TimeoutExpired and every other exception are caught and
turned into data. -/
def run_pipeline (env : Env) (pipeline_path : String) (working_dir : String) :
    ExecutionResult :=
  match env.runProc pipeline_path working_dir with
  | RunOutcome.exited rc out err d =>
      ⟨rc == 0, out, err, d, rc⟩
  | RunOutcome.timedOut =>
      ⟨false, "", "Pipeline execution timed out after 60 seconds",
        timeoutSeconds, -1⟩
  | RunOutcome.launchFailed msg d =>
      ⟨false, "", msg, d, -1⟩

/-- The dict returned by validate_outputs. -/
structure OutputValidationResult where
  files_created : List String
  files_missing : List String
  total_expected : Nat
  success : Bool
  created_count : Nat
  missing_count : Nat
  deriving Repr, DecidableEq

/-- The append loop of validate_outputs: both result lists start empty and each
expected path is appended to files_created or files_missing by existence. -/
def outputsLoop (env : Env) (working_dir : String)
    (acc : List String × List String) : List String → List String × List String
  | [] => acc
  | p :: ps =>
      if env.pathExists (pathJoin working_dir p) then
        outputsLoop env working_dir (acc.1 ++ [p], acc.2) ps
      else
        outputsLoop env working_dir (acc.1, acc.2 ++ [p]) ps

/-- PipelineValidator.validate_outputs: check which expected output files
exist relative to the working directory. -/
def validate_outputs (env : Env) (expected_outputs : List String)
    (working_dir : String) : OutputValidationResult :=
  let pair := outputsLoop env working_dir ([], []) expected_outputs
  { files_created := pair.1
    files_missing := pair.2
    total_expected := expected_outputs.length
    success := pair.2.length == 0
    created_count := pair.1.length
    missing_count := pair.2.length }

/-- The dict returned by validate_json_output.  The Python dicts of the three
return sites carry different key sets; Option none models an absent key. -/
structure JsonValidationResult where
  success : Bool
  error : Option String
  missing_fields : Option (List String)
  data_keys : Option (List String)
  data_type : Option String
  deriving Repr, DecidableEq

/-- Substring scan over the character list of the haystack. -/
def strContainsLoop (needle : List Char) : List Char → Bool
  | [] => needle.isEmpty
  | c :: cs => needle.isPrefixOf (c :: cs) || strContainsLoop needle cs

/-- Python substring membership `needle in hay` for strings. -/
def strContainsSub (hay needle : String) : Bool :=
  strContainsLoop needle.data hay.data

/-- Whether a JSON list element compares Python-equal to the string field. -/
def elemEqStr (field : String) : JsonValue → Bool
  | JsonValue.str s => s == field
  | _ => false

/-- The `field in data` membership test itself; Except.error is the TypeError
raised on a non-container value. -/
def pyIn (field : String) : JsonValue → Except String Bool
  | JsonValue.obj kvs => Except.ok (kvs.any (fun kv => kv.1 == field))
  | JsonValue.arr es => Except.ok (es.any (elemEqStr field))
  | JsonValue.str s => Except.ok (strContainsSub s field)
  | JsonValue.num _ => Except.error "argument of type int is not iterable"
  | JsonValue.boolean _ => Except.error "argument of type bool is not iterable"
  | JsonValue.null => Except.error "argument of type NoneType is not iterable"

/-- The missing_fields loop of validate_json_output: append each required
field that is not `in` the parsed data, in required_fields order; a TypeError
from the membership test propagates. -/
def computeMissing (data : JsonValue) : List String → Except String (List String)
  | [] => Except.ok []
  | f :: fs => do
      let b ← pyIn f data
      let rest ← computeMissing data fs
      Except.ok (if b then rest else f :: rest)

/-- list(data.keys()) if isinstance(data, dict) else []. -/
def dataKeysOf : JsonValue → List String
  | JsonValue.obj kvs => kvs.map Prod.fst
  | _ => []

/-- type(data).__name__ for a parsed JSON value. -/
def typeNameOf : JsonValue → String
  | JsonValue.obj _ => "dict"
  | JsonValue.arr _ => "list"
  | JsonValue.str _ => "str"
  | JsonValue.num _ => "int"
  | JsonValue.boolean _ => "bool"
  | JsonValue.null => "NoneType"

/-- PipelineValidator.validate_json_output: missing file and JSONDecodeError
become failure dicts with an error message; any other exception (in particular
the TypeError of the membership test) is not caught and propagates. -/
def validate_json_output (env : Env) (json_path : String)
    (required_fields : List String) : Except String JsonValidationResult :=
  if env.pathExists json_path then
    match env.parseJson json_path with
    | JsonParse.malformed e =>
        Except.ok ⟨false, some ("Invalid JSON: " ++ e), none, none, none⟩
    | JsonParse.value data => do
        let missing ← computeMissing data required_fields
        Except.ok ⟨missing.length == 0, none, some missing,
          some (dataKeysOf data), some (typeNameOf data)⟩
  else
    Except.ok ⟨false, some ("JSON file not found: " ++ json_path),
      none, none, none⟩

/-- The per-case record assembled by test_pipeline: name and pipeline copied
from the configuration, the execution dict, and the optional validation
entries that are only inserted on a successful execution. -/
structure CaseResult where
  name : String
  pipeline : String
  execution : ExecutionResult
  output_validation : Option OutputValidationResult
  json_validations : Option (List (String × JsonValidationResult))
  deriving Repr, DecidableEq

/-- The json_validations loop of test_pipeline: validate each (json file,
required fields) entry in dict order; an exception from validate_json_output
propagates. -/
def runJsonChecks (env : Env) :
    List (String × List String) →
    Except String (List (String × JsonValidationResult))
  | [] => Except.ok []
  | (jf, rf) :: rest => do
      let r ← validate_json_output env jf rf
      let tail ← runJsonChecks env rest
      Except.ok ((jf, r) :: tail)

/-- PipelineValidator.test_pipeline: run the pipeline, then - only when the
execution succeeded - attach the artifact check when expected_outputs is
declared and the structured checks when json_validations is declared. -/
def test_pipeline (env : Env) (pipeline_name : String) (config : CaseConfig) :
    Except String CaseResult :=
  let result := run_pipeline env config.pipeline (config.working_dir.getD ".")
  if result.success then
    let ov := config.expected_outputs.map
      (fun eo => validate_outputs env eo (config.working_dir.getD "."))
    match config.json_validations with
    | none => Except.ok ⟨pipeline_name, config.pipeline, result, ov, none⟩
    | some jvs => do
        let checked ← runJsonChecks env jvs
        Except.ok ⟨pipeline_name, config.pipeline, result, ov, some checked⟩
  else
    Except.ok ⟨pipeline_name, config.pipeline, result, none, none⟩

/-- The mutable attributes of a PipelineValidator instance: cli_path and the
test_results list, both set in __init__ and threaded explicitly here. -/
structure ValidatorState where
  cli_path : String
  test_results : List CaseResult
  deriving Repr, DecidableEq

/-- PipelineValidator() with the default cli argument: cli_path is the default
and test_results starts empty. -/
def initState : ValidatorState :=
  ⟨"./cli/dist/index.js", []⟩

/-- The suite loop of run_test_suite: one test_pipeline call per entry of the
tests dict, appended in iteration order; an exception from a case propagates
and aborts the loop. -/
def runCases (env : Env) :
    List (String × CaseConfig) → Except String (List CaseResult)
  | [] => Except.ok []
  | (n, c) :: rest => do
      let r ← test_pipeline env n c
      let tail ← runCases env rest
      Except.ok (r :: tail)

/-- The passed count of the summary: how many results have a successful
execution (lines 191 and 215). -/
def passedCount (results : List CaseResult) : Nat :=
  (results.filter (fun r => r.execution.success)).length

/-- PipelineValidator.run_test_suite.  The returned triple models (the
instance state after the call - run_test_suite never assigns to
self.test_results, so it is returned unchanged -, the local all_results list,
and the boolean return value).  A missing configuration file returns False
immediately with no case run. -/
def run_test_suite (st : ValidatorState) (env : Env) (config_path : String) :
    Except String (ValidatorState × List CaseResult × Bool) :=
  if env.pathExists config_path then
    let config := env.loadYaml config_path
    do
      let all_results ← runCases env config.tests
      Except.ok (st, all_results,
        passedCount all_results == all_results.length)
  else
    Except.ok (st, [], false)

/-- The summary dict of generate_report. -/
structure Summary where
  total : Nat
  passed : Nat
  failed : Nat
  deriving Repr, DecidableEq

/-- The summary computed over a result list: total is its length, passed
counts successful executions, failed counts unsuccessful ones. -/
def reportSummary (results : List CaseResult) : Summary :=
  { total := results.length
    passed := passedCount results
    failed := (results.filter (fun r => !r.execution.success)).length }

/-- The report document written by generate_report. -/
structure SuiteReport where
  timestamp : Nat
  cli_path : String
  results : List CaseResult
  summary : Summary
  deriving Repr, DecidableEq

/-- PipelineValidator.generate_report: the JSON document serialized to the
output path, built from self.cli_path and self.test_results. -/
def generate_report (env : Env) (st : ValidatorState) : SuiteReport :=
  { timestamp := env.now
    cli_path := st.cli_path
    results := st.test_results
    summary := reportSummary st.test_results }

/-- sys.exit(0 if success else 1). -/
def mainExitCode (success : Bool) : Nat :=
  if success then 0 else 1

/-- main: build a fresh PipelineValidator, run the suite on the given
configuration file, always generate the report, and exit 0 exactly when the
suite returned True.  The result models (the written report, the exit
status). -/
def main (env : Env) (config_file : String) :
    Except String (SuiteReport × Nat) := do
  let out ← run_test_suite initState env config_file
  let report := generate_report env out.1
  Except.ok (report, mainExitCode out.2.2)

/-! Theorems. -/

/-- The append loop of validate_outputs computes the two order-preserving
filters of the expected list, by existence. -/
theorem outputsLoop_eq (env : Env) (wd : String) (l : List String)
    (acc1 acc2 : List String) :
    outputsLoop env wd (acc1, acc2) l =
      (acc1 ++ l.filter (fun p => env.pathExists (pathJoin wd p)),
       acc2 ++ l.filter (fun p => !env.pathExists (pathJoin wd p))) := by
  induction l generalizing acc1 acc2 with
  | nil => simp [outputsLoop]
  | cons p ps ih =>
      simp only [outputsLoop]
      cases h : env.pathExists (pathJoin wd p) with
      | true => simp [ih, List.filter_cons, h]
      | false => simp [ih, List.filter_cons, h]

/-- C2: validate_outputs partitions the expected list by existence into
files_created and files_missing, each preserving the input order (they are the
two complementary order-preserving filters), success holds exactly when
files_missing is empty, and the empty input yields success with both lists
empty. -/
theorem validate_outputs_partition (env : Env) (expected : List String)
    (wd : String) :
    (validate_outputs env expected wd).files_created
        = expected.filter (fun p => env.pathExists (pathJoin wd p)) ∧
    (validate_outputs env expected wd).files_missing
        = expected.filter (fun p => !env.pathExists (pathJoin wd p)) ∧
    ((validate_outputs env expected wd).success = true ↔
        (validate_outputs env expected wd).files_missing = []) ∧
    (expected = [] →
      (validate_outputs env expected wd).success = true ∧
      (validate_outputs env expected wd).files_created = [] ∧
      (validate_outputs env expected wd).files_missing = []) := by
  have hloop := outputsLoop_eq env wd expected [] []
  refine ⟨?_, ?_, ?_, ?_⟩
  · simp [validate_outputs, hloop]
  · simp [validate_outputs, hloop]
  · simp only [validate_outputs, hloop]
    simp [List.length_eq_zero]
  · intro h
    subst h
    simp [validate_outputs, outputsLoop]

/-- A concrete filesystem for exercising validate_outputs: exactly one of the
two expected files exists. -/
def envW2 : Env :=
  { pathExists := fun s => s == "./seen.txt"
    parseJson := fun _ => JsonParse.malformed "none"
    runProc := fun _ _ => RunOutcome.timedOut
    loadYaml := fun _ => ⟨none, []⟩
    now := 0 }

/-- Witness for C2 at a concrete input: the partition and the success test
evaluate as the theorem states. -/
theorem validate_outputs_partition_witness :
    (validate_outputs envW2 ["seen.txt", "gone.txt"] ".").files_created
        = ["seen.txt"] ∧
    (validate_outputs envW2 ["seen.txt", "gone.txt"] ".").files_missing
        = ["gone.txt"] ∧
    ¬ (validate_outputs envW2 ["seen.txt", "gone.txt"] ".").success = true := by
  have h := validate_outputs_partition envW2 ["seen.txt", "gone.txt"] "."
  refine ⟨?_, ?_, ?_⟩
  · rw [h.1]; rfl
  · rw [h.2.1]; rfl
  · rw [h.2.2.1]; rw [h.2.1]; simp [envW2, pathJoin]

/-- C5: when the subprocess call raises TimeoutExpired, run_pipeline returns
success false, empty stdout, the fixed timeout message in stderr, exit_code -1
and duration equal to the timeout value, which is 60 seconds. -/
theorem run_pipeline_timeout (env : Env) (p wd : String)
    (h : env.runProc p wd = RunOutcome.timedOut) :
    run_pipeline env p wd =
      ⟨false, "", "Pipeline execution timed out after 60 seconds",
        timeoutSeconds, -1⟩ ∧
    timeoutSeconds = 60 := by
  constructor
  · simp [run_pipeline, h]
  · rfl

/-- A world whose every subprocess invocation times out. -/
def envW5 : Env :=
  { pathExists := fun _ => false
    parseJson := fun _ => JsonParse.malformed "none"
    runProc := fun _ _ => RunOutcome.timedOut
    loadYaml := fun _ => ⟨none, []⟩
    now := 0 }

/-- Witness for C5 at a concrete input. -/
theorem run_pipeline_timeout_witness :
    run_pipeline envW5 "pipe.yaml" "." =
      ⟨false, "", "Pipeline execution timed out after 60 seconds", 60, -1⟩ :=
  (run_pipeline_timeout envW5 "pipe.yaml" "." rfl).1

/-- C4: a missing artifact path yields the file-not-found failure dict, which
carries no missing_fields at all; an existing but unparsable artifact yields
the malformed-JSON failure dict, also without missing_fields; and the two
causes are distinct for every path and every parser detail. -/
theorem validate_json_output_causes (env : Env) (p : String)
    (req : List String) :
    (env.pathExists p = false →
      validate_json_output env p req =
        Except.ok ⟨false, some ("JSON file not found: " ++ p),
          none, none, none⟩) ∧
    (∀ e, env.pathExists p = true → env.parseJson p = JsonParse.malformed e →
      validate_json_output env p req =
        Except.ok ⟨false, some ("Invalid JSON: " ++ e), none, none, none⟩) ∧
    (∀ q e, ("JSON file not found: " ++ q) ≠ ("Invalid JSON: " ++ e)) := by
  refine ⟨?_, ?_, ?_⟩
  · intro h
    simp [validate_json_output, h]
  · intro e h1 h2
    simp [validate_json_output, h1, h2]
  · intro q e hcontra
    have h1 : ("JSON file not found: " ++ q).data.head? = some 'J' := rfl
    have h2 : ("Invalid JSON: " ++ e).data.head? = some 'I' := rfl
    rw [hcontra, h2] at h1
    exact absurd h1 (by decide)

/-- A filesystem with one unparsable json file and nothing else. -/
def envW4 : Env :=
  { pathExists := fun s => s == "bad.json"
    parseJson := fun _ => JsonParse.malformed "oops"
    runProc := fun _ _ => RunOutcome.timedOut
    loadYaml := fun _ => ⟨none, []⟩
    now := 0 }

/-- Witness for C4 at concrete inputs: both failure dicts, each with its own
cause and no missing_fields. -/
theorem validate_json_output_causes_witness :
    validate_json_output envW4 "nope.json" ["x"] =
      Except.ok ⟨false, some "JSON file not found: nope.json",
        none, none, none⟩ ∧
    validate_json_output envW4 "bad.json" ["x"] =
      Except.ok ⟨false, some "Invalid JSON: oops", none, none, none⟩ :=
  ⟨(validate_json_output_causes envW4 "nope.json" ["x"]).1 rfl,
   (validate_json_output_causes envW4 "bad.json" ["x"]).2.1 "oops" rfl rfl⟩

/-- On a dict, the missing_fields loop never raises and filters the required
list by key presence, preserving order. -/
theorem computeMissing_obj (kvs : List (String × JsonValue))
    (req : List String) :
    computeMissing (JsonValue.obj kvs) req =
      Except.ok (req.filter (fun f => !(kvs.any (fun kv => kv.1 == f)))) := by
  induction req with
  | nil => rfl
  | cons f fs ih =>
      simp only [computeMissing, pyIn, ih, Bind.bind, Except.bind]
      cases h : kvs.any (fun kv => kv.1 == f) with
      | true => simp [List.filter_cons, h]
      | false => simp [List.filter_cons, h]

/-- On a list, the missing_fields loop never raises and filters the required
list by Python list membership: a field counts as present when some element
equals it. -/
theorem computeMissing_arr (es : List JsonValue) (req : List String) :
    computeMissing (JsonValue.arr es) req =
      Except.ok (req.filter (fun f => !(es.any (elemEqStr f)))) := by
  induction req with
  | nil => rfl
  | cons f fs ih =>
      simp only [computeMissing, pyIn, ih, Bind.bind, Except.bind]
      cases h : es.any (elemEqStr f) with
      | true => simp [List.filter_cons, h]
      | false => simp [List.filter_cons, h]

/-- On a number, the very first membership test raises the TypeError. -/
theorem computeMissing_num (n : Int) (f : String) (fs : List String) :
    computeMissing (JsonValue.num n) (f :: fs) =
      Except.error "argument of type int is not iterable" := rfl

/-- A filesystem whose json artifact parses to the list ["a"]. -/
def envC3 : Env :=
  { pathExists := fun _ => true
    parseJson := fun _ => JsonParse.value (JsonValue.arr [JsonValue.str "a"])
    runProc := fun _ _ => RunOutcome.exited 0 "" "" 1
    loadYaml := fun _ => ⟨none, []⟩
    now := 0 }

/-- Counterexample to C3 as stated: the artifact parses to the non-mapping
value ["a"] and the required list ["a"] is non-empty, yet validate_json_output
reports no missing field and success true, because the membership test on a
list checks elements, not keys. -/
theorem validate_json_output_nonmapping_counterexample :
    envC3.parseJson "out.json" =
      JsonParse.value (JsonValue.arr [JsonValue.str "a"]) ∧
    validate_json_output envC3 "out.json" ["a"] =
      Except.ok ⟨true, none, some [], some [], some "list"⟩ :=
  ⟨rfl, rfl⟩

/-- C3 amended: on a mapping, missing_fields is the order-preserving
subsequence of required fields absent from the top-level keys and data_keys is
the key list; on a list, data_keys is empty but a required field counts as
missing only when no element of the list equals it; on a number with a
non-empty required list, the membership test raises a TypeError instead of
returning a result. -/
theorem validate_json_output_membership (env : Env) (p : String)
    (req : List String) (hex : env.pathExists p = true) :
    (∀ kvs, env.parseJson p = JsonParse.value (JsonValue.obj kvs) →
      validate_json_output env p req =
        Except.ok ⟨(req.filter (fun f => !(kvs.any (fun kv => kv.1 == f)))).length == 0,
          none,
          some (req.filter (fun f => !(kvs.any (fun kv => kv.1 == f)))),
          some (kvs.map Prod.fst), some "dict"⟩) ∧
    (∀ es, env.parseJson p = JsonParse.value (JsonValue.arr es) →
      validate_json_output env p req =
        Except.ok ⟨(req.filter (fun f => !(es.any (elemEqStr f)))).length == 0,
          none,
          some (req.filter (fun f => !(es.any (elemEqStr f)))),
          some [], some "list"⟩) ∧
    (∀ n f fs, env.parseJson p = JsonParse.value (JsonValue.num n) →
      req = f :: fs →
      validate_json_output env p req =
        Except.error "argument of type int is not iterable") := by
  refine ⟨?_, ?_, ?_⟩
  · intro kvs hp
    simp only [validate_json_output, hex, if_pos, hp, computeMissing_obj]
    rfl
  · intro es hp
    simp only [validate_json_output, hex, if_pos, hp, computeMissing_arr]
    rfl
  · intro n f fs hp hreq
    subst hreq
    simp only [validate_json_output, hex, if_pos, hp, computeMissing_num]
    rfl

/-- A filesystem whose json artifact parses to the dict with keys a, b. -/
def envW3 : Env :=
  { pathExists := fun _ => true
    parseJson := fun _ => JsonParse.value
      (JsonValue.obj [("a", JsonValue.num 1), ("b", JsonValue.num 2)])
    runProc := fun _ _ => RunOutcome.exited 0 "" "" 1
    loadYaml := fun _ => ⟨none, []⟩
    now := 0 }

/-- Witness for the amended C3: the dict with keys a, b checked against
required fields a, b, c yields missing ["c"], present keys ["a", "b"] and
success false. -/
theorem validate_json_output_membership_witness :
    validate_json_output envW3 "data.json" ["a", "b", "c"] =
      Except.ok ⟨false, none, some ["c"], some ["a", "b"], some "dict"⟩ := by
  have h := (validate_json_output_membership envW3 "data.json"
    ["a", "b", "c"] rfl).1 [("a", JsonValue.num 1), ("b", JsonValue.num 2)] rfl
  simpa using h

/-- Shape of every case record test_pipeline actually returns: the name and
pipeline copied from the configuration, the execution dict of run_pipeline,
and each optional validation entry present exactly when the execution
succeeded and the corresponding configuration key is declared. -/
theorem test_pipeline_shape (env : Env) (nm : String) (cfg : CaseConfig)
    (r : CaseResult) (h : test_pipeline env nm cfg = Except.ok r) :
    r.name = nm ∧ r.pipeline = cfg.pipeline ∧
    r.execution = run_pipeline env cfg.pipeline (cfg.working_dir.getD ".") ∧
    r.output_validation.isSome
      = (r.execution.success && cfg.expected_outputs.isSome) ∧
    r.json_validations.isSome
      = (r.execution.success && cfg.json_validations.isSome) := by
  unfold test_pipeline at h
  cases hs : (run_pipeline env cfg.pipeline (cfg.working_dir.getD ".")).success with
  | false =>
      simp only [hs, Bool.false_eq_true, if_false] at h
      simp only [Except.ok.injEq] at h
      subst h
      simp [hs]
  | true =>
      simp only [hs, if_true] at h
      cases hj : cfg.json_validations with
      | none =>
          simp only [hj] at h
          simp only [Except.ok.injEq] at h
          subst h
          cases ho : cfg.expected_outputs <;> simp [hs, hj, ho]
      | some jvs =>
          simp only [hj] at h
          cases hc : runJsonChecks env jvs with
          | error e =>
              rw [hc] at h
              simp [Bind.bind, Except.bind] at h
          | ok checked =>
              rw [hc] at h
              simp only [Bind.bind, Except.bind, Except.ok.injEq] at h
              subst h
              cases ho : cfg.expected_outputs <;> simp [hs, hj, ho]

/-- C6: whenever test_pipeline returns a case record, the record carries an
output_validation entry exactly when the execution succeeded and the case
declares expected_outputs, carries a json_validations entry exactly when the
execution succeeded and the case declares json_validations, and on a failed
execution carries neither, so a case declaring neither carries only the
execution record. -/
theorem test_pipeline_attachment (env : Env) (nm : String) (cfg : CaseConfig)
    (r : CaseResult) (h : test_pipeline env nm cfg = Except.ok r) :
    (r.output_validation.isSome
      = (r.execution.success && cfg.expected_outputs.isSome)) ∧
    (r.json_validations.isSome
      = (r.execution.success && cfg.json_validations.isSome)) ∧
    (r.execution.success = false →
      r.output_validation = none ∧ r.json_validations = none) := by
  obtain ⟨-, -, -, h4, h5⟩ := test_pipeline_shape env nm cfg r h
  refine ⟨h4, h5, ?_⟩
  intro hf
  rw [hf] at h4 h5
  simp only [Bool.false_and] at h4 h5
  exact ⟨Option.not_isSome_iff_eq_none.mp (by simp [h4]),
    Option.not_isSome_iff_eq_none.mp (by simp [h5])⟩

/-- A world where every launch fails, for exercising the failed-execution
branch of test_pipeline. -/
def envW6 : Env :=
  { pathExists := fun _ => true
    parseJson := fun _ => JsonParse.malformed "x"
    runProc := fun _ _ => RunOutcome.launchFailed "node not found" 0
    loadYaml := fun _ => ⟨none, []⟩
    now := 0 }

/-- A case declaring both kinds of expectations. -/
def cfgW6 : CaseConfig :=
  ⟨"p.yaml", none, some ["out.pdf"], some [("out.json", ["a"])]⟩

/-- Witness for C6 at a concrete input: a failed launch on a case declaring
both expectations yields a record with no validation entry. -/
theorem test_pipeline_attachment_witness :
    (test_pipeline envW6 "t" cfgW6 = Except.ok
      ⟨"t", "p.yaml", ⟨false, "", "node not found", 0, -1⟩, none, none⟩) ∧
    (⟨"t", "p.yaml", ⟨false, "", "node not found", 0, -1⟩, none, none⟩
        : CaseResult).output_validation = none ∧
    (⟨"t", "p.yaml", ⟨false, "", "node not found", 0, -1⟩, none, none⟩
        : CaseResult).json_validations = none := by
  have h := test_pipeline_attachment envW6 "t" cfgW6
    ⟨"t", "p.yaml", ⟨false, "", "node not found", 0, -1⟩, none, none⟩ rfl
  exact ⟨rfl, (h.2.2 rfl).1, (h.2.2 rfl).2⟩

/-- Counting the unsuccessful results is the same as the total minus the
count of successful ones. -/
theorem length_filter_not_success (l : List CaseResult) :
    (l.filter (fun r => !r.execution.success)).length =
      l.length - (l.filter (fun r => r.execution.success)).length := by
  induction l with
  | nil => rfl
  | cons a l ih =>
      have hle := List.length_filter_le (fun r => r.execution.success) l
      cases h : a.execution.success with
      | false => simp [List.filter_cons, h, ih]; omega
      | true => simp [List.filter_cons, h, ih]

/-- C7: the summary over a result list has total the number of results,
passed the number whose execution succeeded, failed equal to total minus
passed; the boolean suite signal computed by run_test_suite is true exactly
when passed equals total, and the exit code of main is 0 exactly under the
same condition. -/
theorem suite_summary (results : List CaseResult) :
    (reportSummary results).total = results.length ∧
    (reportSummary results).passed = passedCount results ∧
    (reportSummary results).failed =
      (reportSummary results).total - (reportSummary results).passed ∧
    ((passedCount results == results.length) = true ↔
      (reportSummary results).passed = (reportSummary results).total) ∧
    (mainExitCode (passedCount results == results.length) = 0 ↔
      (reportSummary results).passed = (reportSummary results).total) ∧
    (∀ st env p st' rs b, env.pathExists p = true →
      run_test_suite st env p = Except.ok (st', rs, b) →
      (b = true ↔ passedCount rs = rs.length)) := by
  refine ⟨rfl, rfl, ?_, ?_, ?_, ?_⟩
  · exact length_filter_not_success results
  · simp [reportSummary, passedCount, Nat.beq_eq_true_eq]
  · have hbool : ∀ b : Bool, mainExitCode b = 0 ↔ b = true := fun b => by
      cases b <;> simp [mainExitCode]
    rw [hbool]
    simp [reportSummary, passedCount, Nat.beq_eq_true_eq]
  · intro st env p st' rs b he h
    unfold run_test_suite at h
    simp only [he, if_true] at h
    cases hc : runCases env (env.loadYaml p).tests with
    | error e => rw [hc] at h; simp [Bind.bind, Except.bind] at h
    | ok rs2 =>
        rw [hc] at h
        simp only [Bind.bind, Except.bind, Except.ok.injEq,
          Prod.mk.injEq] at h
        obtain ⟨-, hrs, hb⟩ := h
        subst hrs; subst hb
        simp [Nat.beq_eq_true_eq]

/-- A result list with one passed and one failed case. -/
def resW7 : List CaseResult :=
  [⟨"ok", "p", ⟨true, "", "", 1, 0⟩, none, none⟩,
   ⟨"bad", "q", ⟨false, "", "", 1, 2⟩, none, none⟩]

/-- Witness for C7 at a concrete input: two results, one passed, give total 2,
passed 1, failed 1, and a non-zero exit signal. -/
theorem suite_summary_witness :
    (reportSummary resW7).total = 2 ∧
    (reportSummary resW7).passed = 1 ∧
    (reportSummary resW7).failed = 1 ∧
    ¬ mainExitCode (passedCount resW7 == resW7.length) = 0 := by
  have h := suite_summary resW7
  refine ⟨h.1.trans rfl, (h.2.1).trans rfl, ?_, ?_⟩
  · rw [h.2.2.1, h.1, h.2.1]; rfl
  · intro hzero
    have := (h.2.2.2.2.1).mp hzero
    rw [h.2.1, h.1] at this
    exact absurd this (by decide)

/-- When the suite loop completes, it produced exactly one result per entry of
the tests list, positionally: the i-th result is the (completed) test_pipeline
call on the i-th entry, and carries that entry's name. -/
theorem runCases_ok (env : Env) (l : List (String × CaseConfig))
    (res : List CaseResult) (h : runCases env l = Except.ok res) :
    res.length = l.length ∧
    ∀ i (hi : i < l.length), ∃ r, res.get? i = some r ∧
      test_pipeline env (l.get ⟨i, hi⟩).1 (l.get ⟨i, hi⟩).2 = Except.ok r ∧
      r.name = (l.get ⟨i, hi⟩).1 := by
  induction l generalizing res with
  | nil =>
      simp only [runCases, Except.ok.injEq] at h
      subst h
      exact ⟨rfl, fun i hi => absurd hi (Nat.not_lt_zero i)⟩
  | cons nc rest ih =>
      obtain ⟨n, c⟩ := nc
      simp only [runCases] at h
      cases hr : test_pipeline env n c with
      | error e => rw [hr] at h; simp [Bind.bind, Except.bind] at h
      | ok r =>
          rw [hr] at h
          cases ht : runCases env rest with
          | error e => rw [ht] at h; simp [Bind.bind, Except.bind] at h
          | ok tail =>
              rw [ht] at h
              simp only [Bind.bind, Except.bind, Except.ok.injEq] at h
              subst h
              obtain ⟨ihlen, ihget⟩ := ih tail ht
              refine ⟨by simp [ihlen], ?_⟩
              intro i hi
              cases i with
              | zero =>
                  exact ⟨r, rfl, hr, (test_pipeline_shape env n c r hr).1⟩
              | succ j =>
                  have hj : j < rest.length := Nat.lt_of_succ_lt_succ hi
                  obtain ⟨r2, hr2a, hr2b, hr2c⟩ := ihget j hj
                  exact ⟨r2, hr2a, hr2b, hr2c⟩

/-- C8: whenever run_test_suite completes on an existing configuration, the
result list has exactly one entry per entry of the loaded tests dict and in
the dict's insertion order: the i-th result comes from the i-th declared case
and carries its name. -/
theorem run_test_suite_order (st : ValidatorState) (env : Env) (p : String)
    (cfg : SuiteConfig) (st' : ValidatorState) (results : List CaseResult)
    (b : Bool) (h1 : env.pathExists p = true) (h2 : env.loadYaml p = cfg)
    (h3 : run_test_suite st env p = Except.ok (st', results, b)) :
    results.length = cfg.tests.length ∧
    ∀ i (hi : i < cfg.tests.length), ∃ r, results.get? i = some r ∧
      test_pipeline env (cfg.tests.get ⟨i, hi⟩).1 (cfg.tests.get ⟨i, hi⟩).2
        = Except.ok r ∧
      r.name = (cfg.tests.get ⟨i, hi⟩).1 := by
  unfold run_test_suite at h3
  simp only [h1, if_true, h2] at h3
  cases hc : runCases env cfg.tests with
  | error e => rw [hc] at h3; simp [Bind.bind, Except.bind] at h3
  | ok rs =>
      rw [hc] at h3
      simp only [Bind.bind, Except.bind, Except.ok.injEq, Prod.mk.injEq] at h3
      obtain ⟨-, hrs, -⟩ := h3
      subst hrs
      exact runCases_ok env cfg.tests _ hc

/-- A bare case used by the ordering witness. -/
def cfgW8 : CaseConfig := ⟨"p.yaml", none, none, none⟩

/-- A configuration declaring case b before case a, in that insertion order,
in a world where every pipeline run exits 0. -/
def envW8 : Env :=
  { pathExists := fun _ => true
    parseJson := fun _ => JsonParse.malformed "x"
    runProc := fun _ _ => RunOutcome.exited 0 "" "" 1
    loadYaml := fun _ => ⟨none, [("b", cfgW8), ("a", cfgW8)]⟩
    now := 0 }

/-- The result list the suite produces in that world. -/
def resW8 : List CaseResult :=
  [⟨"b", "p.yaml", ⟨true, "", "", 1, 0⟩, none, none⟩,
   ⟨"a", "p.yaml", ⟨true, "", "", 1, 0⟩, none, none⟩]

/-- Witness for C8 at a concrete input: two cases declared in the order b, a
produce exactly two results carrying the names b, a in that order, not in
alphabetical order. -/
theorem run_test_suite_order_witness :
    resW8.length = 2 ∧
    (∃ r, resW8.get? 0 = some r ∧ r.name = "b") ∧
    (∃ r, resW8.get? 1 = some r ∧ r.name = "a") := by
  have h := run_test_suite_order initState envW8 "cfg.yaml"
    ⟨none, [("b", cfgW8), ("a", cfgW8)]⟩ initState resW8 true rfl rfl rfl
  refine ⟨h.1, ?_, ?_⟩
  · obtain ⟨r, hr1, -, hr3⟩ := h.2 0 (by decide)
    exact ⟨r, hr1, hr3⟩
  · obtain ⟨r, hr1, -, hr3⟩ := h.2 1 (by decide)
    exact ⟨r, hr1, hr3⟩

/-- The parsed JSON types on which the Python membership test is defined. -/
def isContainer : JsonValue → Bool
  | JsonValue.obj _ => true
  | JsonValue.arr _ => true
  | JsonValue.str _ => true
  | _ => false

/-- The membership test returns a boolean on every container value. -/
theorem pyIn_ok (f : String) (data : JsonValue)
    (hd : isContainer data = true) : ∃ b, pyIn f data = Except.ok b := by
  cases data with
  | obj kvs => exact ⟨_, rfl⟩
  | arr es => exact ⟨_, rfl⟩
  | str s => exact ⟨_, rfl⟩
  | num n => simp [isContainer] at hd
  | boolean b => simp [isContainer] at hd
  | null => simp [isContainer] at hd

/-- The missing_fields loop completes on every container value. -/
theorem computeMissing_ok (data : JsonValue) (hd : isContainer data = true)
    (req : List String) : ∃ ms, computeMissing data req = Except.ok ms := by
  induction req with
  | nil => exact ⟨[], rfl⟩
  | cons f fs ih =>
      obtain ⟨b, hb⟩ := pyIn_ok f data hd
      obtain ⟨ms, hms⟩ := ih
      refine ⟨if b then ms else f :: ms, ?_⟩
      simp [computeMissing, hb, hms, Bind.bind, Except.bind]

/-- validate_json_output returns a result dict - rather than raising -
whenever any successfully parsed value is a container or the required field
list is empty; a missing file and malformed JSON always return a dict. -/
theorem validate_json_output_ok (env : Env) (p : String) (rf : List String)
    (h : ∀ dv, env.parseJson p = JsonParse.value dv →
      isContainer dv = true ∨ rf = []) :
    ∃ res, validate_json_output env p rf = Except.ok res := by
  cases he : env.pathExists p with
  | false =>
      exact ⟨_, by simp [validate_json_output, he]; rfl⟩
  | true =>
      cases hp : env.parseJson p with
      | malformed e => exact ⟨_, by simp [validate_json_output, he, hp]; rfl⟩
      | value dv =>
          rcases h dv hp with hc | hrf
          · obtain ⟨ms, hms⟩ := computeMissing_ok dv hc rf
            refine ⟨⟨ms.length == 0, none, some ms, some (dataKeysOf dv),
              some (typeNameOf dv)⟩, ?_⟩
            simp [validate_json_output, he, hp, hms, Bind.bind, Except.bind]
          · subst hrf
            refine ⟨⟨true, none, some [], some (dataKeysOf dv),
              some (typeNameOf dv)⟩, ?_⟩
            simp [validate_json_output, he, hp, computeMissing,
              Bind.bind, Except.bind]

/-- The json_validations loop completes when every entry satisfies the
container-or-empty condition. -/
theorem runJsonChecks_ok (env : Env) (jvs : List (String × List String))
    (h : ∀ pr ∈ jvs, ∀ dv, env.parseJson pr.1 = JsonParse.value dv →
      isContainer dv = true ∨ pr.2 = []) :
    ∃ cs, runJsonChecks env jvs = Except.ok cs := by
  induction jvs with
  | nil => exact ⟨[], rfl⟩
  | cons pr rest ih =>
      obtain ⟨jf, rf⟩ := pr
      obtain ⟨res, hres⟩ := validate_json_output_ok env jf rf
        (h (jf, rf) (List.mem_cons_self _ _))
      obtain ⟨cs, hcs⟩ := ih (fun q hq => h q (List.mem_cons_of_mem _ hq))
      exact ⟨(jf, res) :: cs,
        by simp [runJsonChecks, hres, hcs, Bind.bind, Except.bind]⟩

/-- test_pipeline completes when every declared json check satisfies the
container-or-empty condition; launch failures, timeouts, non-zero exits and
missing artifacts are all returned as data inside the record. -/
theorem test_pipeline_ok (env : Env) (nm : String) (cfg : CaseConfig)
    (h : ∀ pr ∈ cfg.json_validations.getD [], ∀ dv,
      env.parseJson pr.1 = JsonParse.value dv →
      isContainer dv = true ∨ pr.2 = []) :
    ∃ r, test_pipeline env nm cfg = Except.ok r := by
  unfold test_pipeline
  cases hs : (run_pipeline env cfg.pipeline (cfg.working_dir.getD ".")).success with
  | false => exact ⟨_, by simp [hs]; rfl⟩
  | true =>
      cases hj : cfg.json_validations with
      | none => exact ⟨_, by simp [hs, hj]; rfl⟩
      | some jvs =>
          obtain ⟨cs, hcs⟩ := runJsonChecks_ok env jvs
            (by intro pr hpr; exact h pr (by simp [hj]; exact hpr))
          exact ⟨_, by simp [hs, hj, hcs, Bind.bind, Except.bind]; rfl⟩

/-- The suite loop completes when every case's json checks satisfy the
container-or-empty condition. -/
theorem runCases_all_ok (env : Env) (l : List (String × CaseConfig))
    (h : ∀ nc ∈ l, ∀ pr ∈ nc.2.json_validations.getD [], ∀ dv,
      env.parseJson pr.1 = JsonParse.value dv →
      isContainer dv = true ∨ pr.2 = []) :
    ∃ rs, runCases env l = Except.ok rs := by
  induction l with
  | nil => exact ⟨[], rfl⟩
  | cons nc rest ih =>
      obtain ⟨n, c⟩ := nc
      obtain ⟨r, hr⟩ := test_pipeline_ok env n c
        (h (n, c) (List.mem_cons_self _ _))
      obtain ⟨rs, hrs⟩ := ih (fun q hq => h q (List.mem_cons_of_mem _ hq))
      exact ⟨r :: rs, by simp [runCases, hr, hrs, Bind.bind, Except.bind]⟩

/-- A case whose json artifact parses to the bare number 42. -/
def cfgC9 : CaseConfig := ⟨"p.yaml", none, none, some [("n.json", ["a"])]⟩

/-- A world where the pipeline run exits 0 and the checked json artifact
parses to 42. -/
def envC9 : Env :=
  { pathExists := fun _ => true
    parseJson := fun _ => JsonParse.value (JsonValue.num 42)
    runProc := fun _ _ => RunOutcome.exited 0 "" "" 1
    loadYaml := fun _ => ⟨none, [("t", cfgC9)]⟩
    now := 0 }

/-- Counterexample to C9 as stated: a json artifact holding the valid JSON
document 42, checked for a required field, makes the membership test raise a
TypeError that validate_json_output does not catch; the per-case evaluation
raises and the exception aborts the whole suite loop. -/
theorem test_pipeline_raises_counterexample :
    test_pipeline envC9 "t" cfgC9 =
      Except.error "argument of type int is not iterable" ∧
    run_test_suite initState envC9 "test-config.yaml" =
      Except.error "argument of type int is not iterable" :=
  ⟨rfl, rfl⟩

/-- C9 amended: launch failures and process exits are always captured as data
in the execution dict, and the suite loop completes with every per-case error
captured as data, provided no json check applies a non-empty required-field
list to an artifact that parses to a non-container value (on such an artifact
the uncaught TypeError aborts the loop). -/
theorem per_case_errors_as_data (st : ValidatorState) (env : Env) (p : String)
    (h : ∀ nc ∈ (env.loadYaml p).tests,
      ∀ pr ∈ nc.2.json_validations.getD [], ∀ dv,
      env.parseJson pr.1 = JsonParse.value dv →
      isContainer dv = true ∨ pr.2 = []) :
    (∀ q wd msg d, env.runProc q wd = RunOutcome.launchFailed msg d →
        run_pipeline env q wd = ⟨false, "", msg, d, -1⟩) ∧
    (∀ q wd rc out err d, env.runProc q wd = RunOutcome.exited rc out err d →
        run_pipeline env q wd = ⟨rc == 0, out, err, d, rc⟩) ∧
    (run_test_suite st env p).isOk = true := by
  refine ⟨?_, ?_, ?_⟩
  · intro q wd msg d hq
    simp [run_pipeline, hq]
  · intro q wd rc out err d hq
    simp [run_pipeline, hq]
  · cases he : env.pathExists p with
    | false => simp [run_test_suite, he, Except.isOk, Except.toBool]
    | true =>
        obtain ⟨rs, hrs⟩ := runCases_all_ok env (env.loadYaml p).tests h
        simp [run_test_suite, he, hrs, Bind.bind, Except.bind, Except.isOk,
          Except.toBool]

/-- A world exercising every captured error kind at once: the first case runs
and has a missing artifact, a failing json field check and a missing json
file; the second case fails to launch. -/
def envW9 : Env :=
  { pathExists := fun s => s == "a.json"
    parseJson := fun _ => JsonParse.value (JsonValue.obj [])
    runProc := fun q _ => if q == "good.yaml" then RunOutcome.exited 0 "" "" 1
      else RunOutcome.launchFailed "spawn failed" 0
    loadYaml := fun _ => ⟨none,
      [("g", ⟨"good.yaml", none, some ["miss.txt"],
          some [("a.json", ["k"]), ("gone.json", ["k"])]⟩),
       ("f", ⟨"bad.yaml", none, none, none⟩)]⟩
    now := 0 }

/-- Witness for the amended C9: in that world the suite loop completes. -/
theorem per_case_errors_as_data_witness :
    (run_test_suite initState envW9 "cfg.yaml").isOk = true := by
  have h := per_case_errors_as_data initState envW9 "cfg.yaml" ?_
  · exact h.2.2
  · intro nc hnc pr hpr dv hdv
    have hdv2 : JsonParse.value (JsonValue.obj []) = JsonParse.value dv := hdv
    cases hdv2
    exact Or.inl rfl

/-- The single successful case of the report-loss world. -/
def cfgC1 : CaseConfig := ⟨"p1.yaml", none, none, none⟩

/-- A world with an existing configuration declaring one case whose pipeline
run exits 0. -/
def envC1 : Env :=
  { pathExists := fun _ => true
    parseJson := fun _ => JsonParse.malformed "x"
    runProc := fun _ _ => RunOutcome.exited 0 "done" "" 2
    loadYaml := fun _ => ⟨none, [("case1", cfgC1)]⟩
    now := 123 }

/-- C1 evaluated at a failing input: the suite run produces exactly one case
record (and returns True), yet the report main writes carries an empty
results array and a summary of zeros, because run_test_suite accumulates the
records in a local list and never stores them into the test_results attribute
that generate_report serializes. -/
theorem generate_report_drops_results :
    run_test_suite initState envC1 "test-config.yaml" =
      Except.ok (initState,
        [⟨"case1", "p1.yaml", ⟨true, "done", "", 2, 0⟩, none, none⟩], true) ∧
    main envC1 "test-config.yaml" =
      Except.ok (⟨123, "./cli/dist/index.js", [], ⟨0, 0, 0⟩⟩, 0) :=
  ⟨rfl, rfl⟩

/-- C10: when the configuration document does not exist, run_test_suite runs
no case and returns False, and main still produces the report - with an empty
results array and total, passed, failed all zero - and exits with status 1. -/
theorem missing_config_report (env : Env) (p : String)
    (h : env.pathExists p = false) :
    run_test_suite initState env p = Except.ok (initState, [], false) ∧
    main env p =
      Except.ok (⟨env.now, "./cli/dist/index.js", [], ⟨0, 0, 0⟩⟩, 1) := by
  have h1 : run_test_suite initState env p = Except.ok (initState, [], false) := by
    simp [run_test_suite, h]
  refine ⟨h1, ?_⟩
  unfold main
  rw [h1]
  simp [Bind.bind, Except.bind, generate_report, initState, reportSummary,
    passedCount, mainExitCode]

/-- A world with no files at all. -/
def envW10 : Env :=
  { pathExists := fun _ => false
    parseJson := fun _ => JsonParse.malformed "x"
    runProc := fun _ _ => RunOutcome.timedOut
    loadYaml := fun _ => ⟨none, []⟩
    now := 7 }

/-- Witness for C10 at a concrete input: the empty report is still produced
and the exit status is 1. -/
theorem missing_config_report_witness :
    main envW10 "test-config.yaml" =
      Except.ok (⟨7, "./cli/dist/index.js", [], ⟨0, 0, 0⟩⟩, 1) :=
  (missing_config_report envW10 "test-config.yaml" rfl).2

end ValidatePipelines
